import Mathlib

/-!
Shallow embedding of the Anonymous-Chat server (src/server.js).

The server keeps an in-memory registry `rooms : roomId -> Room` where
`Room = { hostToken, hostSocketId, users : Map<socketId, {username}>, createdAt,
cleanupTimer }`, and per-socket session data (`socket.data`).  We model JS
`Map`s / object dictionaries as association lists with JS-`Map` semantics:
`set` replaces an existing entry in place (preserving insertion order, as JS
Maps do) or appends a fresh one, `delete` removes the entry.  Keys are unique
in every reachable state, so removing every occurrence coincides with JS
`Map.delete`.  Socket.io's broadcast rooms (`socket.join` / `io.to`) are
modelled by an `ioRooms` list per socket; `io.to(r)` reaches every connected
socket whose `ioRooms` contains `r`.
-/

namespace AnonChat

/-- `Map.get` on an association list: the value at the first matching key. -/
def lookupA {α β : Type} [DecidableEq α] : List (α × β) → α → Option β
  | [], _ => none
  | (k, v) :: t, k2 => if k = k2 then some v else lookupA t k2

/-- `Map.set`: replace the first entry with this key in place, else append. -/
def setA {α β : Type} [DecidableEq α] : List (α × β) → α → β → List (α × β)
  | [], k, v => [(k, v)]
  | (k1, v1) :: t, k, v => if k1 = k then (k, v) :: t else (k1, v1) :: setA t k v

/-- `Map.delete`: remove the entry with this key (keys are unique). -/
def eraseA {α β : Type} [DecidableEq α] (l : List (α × β)) (k : α) : List (α × β) :=
  l.filter (fun p => decide (p.1 ≠ k))

/-- JS `String.prototype.slice(0, n)`. -/
def jsSlice (s : String) (n : Nat) : String := ⟨s.data.take n⟩

/-- One room: `{ hostToken, hostSocketId, users, createdAt, cleanupTimer }`
(server.js lines 36-47).  `cleanupTimer` records whether the auto-delete
timeout scheduled at creation is still pending (not yet cleared/fired). -/
structure Room where
  hostToken : String
  hostSocketId : Option Nat
  users : List (Nat × String)
  createdAt : Nat
  cleanupTimer : Bool
deriving DecidableEq, Repr

/-- Per-socket `socket.data` plus the socket.io rooms the socket has joined. -/
structure SockData where
  roomId : Option String
  username : Option String
  isHost : Bool
  msgTimestamps : List Nat
  ioRooms : List String
deriving DecidableEq, Repr

/-- Fresh `socket.data` of a newly connected socket. -/
def SockData.init : SockData := ⟨none, none, false, [], []⟩

/-- Whole server state: the room registry and the connected sockets. -/
structure ServerState where
  rooms : List (String × Room)
  socks : List (Nat × SockData)
deriving DecidableEq, Repr

def initState : ServerState := ⟨[], []⟩

/-- An outbound broadcast payload. -/
inductive Payload where
  | system (ptype : String) (username : Option String)
  | participants (names : List String)
  | message (sender : Option String) (text : String) (ts : Nat)
  | typing (username : Option String)
  | stopTyping (username : Option String)
deriving DecidableEq, Repr

/-- One emitted broadcast: the sockets it reaches and its payload. -/
structure Emit where
  recipients : List Nat
  payload : Payload
deriving DecidableEq, Repr

/-- An acknowledgment sent back to the requesting socket. -/
inductive Ack where
  | joinOk (roomId : String) (userCount : Nat) (host : Bool)
  | ok
  | err (msg : String)
deriving DecidableEq, Repr

/-- Result of handling one inbound event. -/
structure StepResult where
  state : ServerState
  emits : List Emit
  ack : Option Ack
deriving DecidableEq, Repr

/-- Recipients of `io.to(r).emit(...)`: every connected socket that has
joined the socket.io room `r`. -/
def roomRecipients (s : ServerState) (r : String) : List Nat :=
  (s.socks.filter (fun p => p.2.ioRooms.contains r)).map (fun p => p.1)

/-- `GET /create-room` (server.js lines 33-50): allocate a fresh room with
empty membership and a pending 10-minute cleanup timer.  The id and host
token come from the external `nanoid` generator. -/
def createRoom (s : ServerState) (roomId hostToken : String) (now : Nat) : ServerState :=
  { s with rooms := setA s.rooms roomId ⟨hostToken, none, [], now, true⟩ }

/-- `GET /room-info/:roomId` (lines 53-57): `{userCount, createdAt}` or 404. -/
def roomInfo (s : ServerState) (roomId : String) : Option (Nat × Nat) :=
  (lookupA s.rooms roomId).map (fun r => (r.users.length, r.createdAt))

/-- The cleanup timeout body (lines 42-46): fires only if not cleared; deletes
the room iff it still exists with no users. -/
def timerFire (s : ServerState) (roomId : String) : ServerState :=
  match lookupA s.rooms roomId with
  | none => s
  | some room =>
    if room.cleanupTimer then
      if room.users.length = 0 then { s with rooms := eraseA s.rooms roomId }
      else { s with rooms := setA s.rooms roomId { room with cleanupTimer := false } }
    else s

/-- A new socket connection (`io.on('connection', ...)`). -/
def connectSock (s : ServerState) (sid : Nat) : ServerState :=
  { s with socks := setA s.socks sid SockData.init }

/-- The `join-room` handler (lines 61-103), in source order: parameter check,
room lookup, clear cleanup timer, capacity check, host-token check, register
member (name truncated to 32), `socket.join`, broadcasts, acknowledgment. -/
def handleJoinRoom (s : ServerState) (sid : Nat) (roomId username hostToken : String) :
    StepResult :=
  if roomId = "" ∨ username = "" then ⟨s, [], some (.err "Missing roomId or username")⟩
  else
    match lookupA s.rooms roomId with
    | none => ⟨s, [], some (.err "Room not found or closed")⟩
    | some room =>
      let room1 : Room := { room with cleanupTimer := false }
      if room1.users.length ≥ 5 then
        ⟨{ s with rooms := setA s.rooms roomId room1 }, [], some (.err "Room full (max 5)")⟩
      else
        match lookupA s.socks sid with
        | none => ⟨s, [], none⟩
        | some d =>
          let hp : Room × SockData :=
            if hostToken ≠ "" ∧ hostToken = room.hostToken then
              ({ room1 with hostSocketId := some sid }, { d with isHost := true })
            else (room1, d)
          let room2 : Room := hp.1
          let d1 : SockData := hp.2
          let safeName := jsSlice username 32
          let room3 : Room := { room2 with users := setA room2.users sid safeName }
          let d2 : SockData :=
            { d1 with
              roomId := some roomId, username := some safeName,
              ioRooms := if d1.ioRooms.contains roomId then d1.ioRooms
                         else d1.ioRooms ++ [roomId] }
          let s1 : ServerState :=
            { s with rooms := setA s.rooms roomId room3, socks := setA s.socks sid d2 }
          let recips := roomRecipients s1 roomId
          ⟨s1,
           [⟨recips, .system "join" (some safeName)⟩,
            ⟨recips, .participants (room3.users.map (fun p => p.2))⟩],
           some (.joinOk roomId room3.users.length d2.isHost)⟩

/-- The `message` handler (lines 106-124): room check, sliding-window rate
limit (drop timestamps ≥ 10 s old, reject at ≥ 10 remaining, else record),
truncate to 1000 chars, broadcast to the room, acknowledge. -/
def handleMessage (s : ServerState) (sid : Nat) (msg : String) (now : Nat) : StepResult :=
  match lookupA s.socks sid with
  | none => ⟨s, [], none⟩
  | some d =>
    match d.roomId with
    | none => ⟨s, [], some (.err "Not in room")⟩
    | some rid =>
      match lookupA s.rooms rid with
      | none => ⟨s, [], some (.err "Not in room")⟩
      | some _ =>
        let w := d.msgTimestamps.filter (fun ts => now - ts < 10000)
        if w.length ≥ 10 then
          ⟨{ s with socks := setA s.socks sid { d with msgTimestamps := w } }, [],
           some (.err "Rate limit exceeded. Slow down.")⟩
        else
          let s1 : ServerState :=
            { s with socks := setA s.socks sid { d with msgTimestamps := w ++ [now] } }
          ⟨s1, [⟨roomRecipients s1 rid, .message d.username (jsSlice msg 1000) now⟩],
           some .ok⟩

/-- The `typing` handler (lines 127-132): broadcast to the room, sender
excluded (`socket.to`); no acknowledgment, no state change. -/
def handleTyping (s : ServerState) (sid : Nat) : StepResult :=
  match lookupA s.socks sid with
  | none => ⟨s, [], none⟩
  | some d =>
    match d.roomId with
    | none => ⟨s, [], none⟩
    | some rid =>
      ⟨s, [⟨(roomRecipients s rid).filter (fun x => decide (x ≠ sid)),
            .typing d.username⟩], none⟩

/-- The `stop-typing` handler (lines 135-140). -/
def handleStopTyping (s : ServerState) (sid : Nat) : StepResult :=
  match lookupA s.socks sid with
  | none => ⟨s, [], none⟩
  | some d =>
    match d.roomId with
    | none => ⟨s, [], none⟩
    | some rid =>
      ⟨s, [⟨(roomRecipients s rid).filter (fun x => decide (x ≠ sid)),
            .stopTyping d.username⟩], none⟩

/-- Body of the `disconnect` handler (lines 168-186), run while the socket's
data is still readable: remove the member, clear host if it was the host,
broadcast leave + roster, delete the room if now empty. -/
def disconnectCleanup (s : ServerState) (sid : Nat) : ServerState × List Emit :=
  match lookupA s.socks sid with
  | none => (s, [])
  | some d =>
    match d.roomId with
    | none => (s, [])
    | some rid =>
      match lookupA s.rooms rid with
      | none => (s, [])
      | some room =>
        let room1 : Room :=
          { room with
            users := eraseA room.users sid,
            hostSocketId := if room.hostSocketId = some sid then none
                            else room.hostSocketId }
        let s1 : ServerState := { s with rooms := setA s.rooms rid room1 }
        let recips := roomRecipients s1 rid
        let emits : List Emit :=
          [⟨recips, .system "leave" d.username⟩,
           ⟨recips, .participants (room1.users.map (fun p => p.2))⟩]
        if room1.users.length = 0 then
          ({ s1 with rooms := eraseA s1.rooms rid }, emits)
        else (s1, emits)

/-- A socket disconnecting: socket.io removes it from all broadcast rooms,
the `disconnect` handler runs, then the socket itself is gone. -/
def doDisconnect (s : ServerState) (sid : Nat) : ServerState × List Emit :=
  match lookupA s.socks sid with
  | none => (s, [])
  | some d =>
    let s0 : ServerState := { s with socks := setA s.socks sid { d with ioRooms := [] } }
    let r1 := disconnectCleanup s0 sid
    ({ r1.1 with socks := eraseA r1.1.socks sid }, r1.2)

/-- One iteration of the close-room member loop (lines 152-160): if the
member socket is still connected, `s.leave(roomId)` then `s.disconnect(true)`
(which fires its `disconnect` handler). -/
def closeStep (acc : ServerState × List Emit) (sid : Nat) : ServerState × List Emit :=
  match lookupA acc.1.socks sid with
  | none => acc
  | some _ =>
    let r := doDisconnect acc.1 sid
    (r.1, acc.2 ++ r.2)

/-- The close-room member loop over the snapshot of member socket ids. -/
def closeFold (sids : List Nat) (acc : ServerState × List Emit) : ServerState × List Emit :=
  sids.foldl closeStep acc

/-- The `close-room` handler (lines 143-165): lookup, token check, broadcast
`system: room-closed`, force-disconnect every member, delete the room entry.
The requesting socket's session is never consulted. -/
def handleCloseRoom (s : ServerState) (roomId hostToken : String) : StepResult :=
  match lookupA s.rooms roomId with
  | none => ⟨s, [], some (.err "Room not found")⟩
  | some room =>
    if hostToken ≠ room.hostToken then ⟨s, [], some (.err "Invalid host token")⟩
    else
      let e0 : Emit := ⟨roomRecipients s roomId, .system "room-closed" none⟩
      let r := closeFold (room.users.map (fun p => p.1)) (s, [e0])
      ⟨{ r.1 with rooms := eraseA r.1.rooms roomId }, r.2, some .ok⟩

/-- Every inbound event the server reacts to. -/
inductive Event where
  | createRoom (roomId hostToken : String) (now : Nat)
  | timerFire (roomId : String)
  | connect (sid : Nat)
  | joinRoom (sid : Nat) (roomId username hostToken : String)
  | message (sid : Nat) (msg : String) (now : Nat)
  | typing (sid : Nat)
  | stopTyping (sid : Nat)
  | closeRoom (sid : Nat) (roomId hostToken : String)
  | disconnect (sid : Nat)
deriving DecidableEq, Repr

/-- Dispatch one event. -/
def step (s : ServerState) : Event → StepResult
  | .createRoom roomId hostToken now => ⟨createRoom s roomId hostToken now, [], none⟩
  | .timerFire roomId => ⟨timerFire s roomId, [], none⟩
  | .connect sid => ⟨connectSock s sid, [], none⟩
  | .joinRoom sid roomId username hostToken => handleJoinRoom s sid roomId username hostToken
  | .message sid msg now => handleMessage s sid msg now
  | .typing sid => handleTyping s sid
  | .stopTyping sid => handleStopTyping s sid
  | .closeRoom _ roomId hostToken => handleCloseRoom s roomId hostToken
  | .disconnect sid => ⟨(doDisconnect s sid).1, (doDisconnect s sid).2, none⟩

/-- The state after one event. -/
def stepState (s : ServerState) (e : Event) : ServerState := (step s e).state

/-- The state after a sequence of events. -/
def run (s : ServerState) (evs : List Event) : ServerState := evs.foldl stepState s

/-- The two per-room invariants: at most 5 members, and the host socket id,
if set, is a key of the membership map. -/
def GoodRoom (room : Room) : Prop :=
  room.users.length ≤ 5 ∧
  ∀ sid, room.hostSocketId = some sid → (lookupA room.users sid).isSome = true

/-- Every room in a registry satisfies the per-room invariants. -/
def RoomsOK (rl : List (String × Room)) : Prop :=
  ∀ r room, lookupA rl r = some room → GoodRoom room

/-- Well-formed server state. -/
def WF (s : ServerState) : Prop := RoomsOK s.rooms


/-- The disconnect cleanup of socket `x` will delete room `rid`: the socket's
session records `rid` and removing `x` leaves the membership empty. -/
def CleanupEmpties (st : ServerState) (x : Nat) (rid : String) : Prop :=
  ∃ dx rx, lookupA st.socks x = some dx ∧ dx.roomId = some rid ∧
    lookupA st.rooms rid = some rx ∧ (eraseA rx.users x).length = 0

/-- Concrete two-member room used by the witnesses below. -/
def wRoom : Room := ⟨"tok", none, [(1, "alice"), (2, "bob")], 0, false⟩

/-- Concrete empty second room. -/
def wRoomQ : Room := ⟨"qt", none, [], 5, false⟩

def wSock1 : SockData := ⟨some "r", some "alice", false, [], ["r"]⟩
def wSock2 : SockData := ⟨some "r", some "bob", false, [], ["r"]⟩
def wSock3 : SockData := ⟨none, none, false, [], []⟩
def wSock4 : SockData := ⟨some "r", some "ghost", false, [], []⟩

/-- Concrete server state: room "r" with members 1 and 2, empty room "q",
an idle connection 3, and a stale session 4 pointing at "r" without being a
member. -/
def wState : ServerState :=
  ⟨[("r", wRoom), ("q", wRoomQ)], [(1, wSock1), (2, wSock2), (3, wSock3), (4, wSock4)]⟩

/-- Trace that fills room "r" to its 5-member capacity. -/
def evsC1 : List Event :=
  [.createRoom "r" "t" 0, .connect 1, .joinRoom 1 "r" "a" "", .connect 2,
   .joinRoom 2 "r" "b" "", .connect 3, .joinRoom 3 "r" "c" "", .connect 4,
   .joinRoom 4 "r" "d" "", .connect 5, .joinRoom 5 "r" "e" ""]

def roomC1 : Room := ⟨"t", none, [(1, "a"), (2, "b"), (3, "c"), (4, "d"), (5, "e")], 0, false⟩

/-- Trace where connection 1 becomes host of room "h" by presenting the token. -/
def evsC4 : List Event :=
  [.createRoom "h" "ht" 0, .connect 1, .joinRoom 1 "h" "a" "ht"]

def roomC4 : Room := ⟨"ht", some 1, [(1, "a")], 0, false⟩

/-- Connection 1 with a full rate-limit window. -/
def dC3 : SockData := ⟨some "r", some "u", false, [0, 1, 2, 3, 4, 5, 6, 7, 8, 9], ["r"]⟩

def stC3 : ServerState := ⟨[("r", ⟨"t", none, [(1, "u")], 0, false⟩)], [(1, dC3)]⟩

/-- An empty room whose expiry timer is still pending. -/
def wRoomT : Room := ⟨"tok", none, [], 0, true⟩

def stC6 : ServerState := ⟨[("r", wRoomT)], []⟩

/-- Same registry as `wState` but no connections at all. -/
def wStateB : ServerState := ⟨[("r", wRoom), ("q", wRoomQ)], []⟩

/-! ### Association-list lemmas -/

theorem lookupA_setA_self {α β : Type} [DecidableEq α] (l : List (α × β)) (k : α) (v : β) :
    lookupA (setA l k v) k = some v := by
  induction l with
  | nil => simp [setA, lookupA]
  | cons p t ih =>
    by_cases h : p.1 = k
    · simp [setA, h, lookupA]
    · simp [setA, h, lookupA, ih]

theorem lookupA_setA_ne {α β : Type} [DecidableEq α] (l : List (α × β)) (k k2 : α) (v : β)
    (h : k2 ≠ k) : lookupA (setA l k v) k2 = lookupA l k2 := by
  have hk : ¬ k = k2 := fun hh => h hh.symm
  induction l with
  | nil => simp [setA, lookupA, hk]
  | cons p t ih =>
    by_cases h1 : p.1 = k
    · simp only [setA, if_pos h1, lookupA]
      have hp : ¬ p.1 = k2 := h1 ▸ hk
      rw [if_neg hk, if_neg hp]
    · simp only [setA, if_neg h1, lookupA]
      by_cases h2 : p.1 = k2
      · simp [h2]
      · simp [h2, ih]

theorem lookupA_eraseA {α β : Type} [DecidableEq α] (l : List (α × β)) (k k2 : α) :
    lookupA (eraseA l k) k2 = if k2 = k then none else lookupA l k2 := by
  induction l with
  | nil => simp [eraseA, lookupA]
  | cons p t ih =>
    by_cases h1 : p.1 = k
    · have he : eraseA (p :: t) k = eraseA t k := by
        simp [eraseA, List.filter_cons, h1]
      rw [he, ih]
      by_cases h2 : k2 = k
      · simp [h2]
      · have hp : ¬ p.1 = k2 := fun hh => h2 (hh.symm.trans h1)
        simp [lookupA, h2, hp]
    · have he : eraseA (p :: t) k = p :: eraseA t k := by
        simp [eraseA, List.filter_cons, h1]
      rw [he]
      simp only [lookupA]
      by_cases h2 : p.1 = k2
      · have hk2 : ¬ k2 = k := fun hh => h1 (h2.trans hh)
        simp [h2, hk2]
      · simp [h2, ih]

theorem lookupA_eraseA_self {α β : Type} [DecidableEq α] (l : List (α × β)) (k : α) :
    lookupA (eraseA l k) k = none := by
  simp [lookupA_eraseA]

theorem lookupA_eraseA_ne {α β : Type} [DecidableEq α] (l : List (α × β)) (k k2 : α)
    (h : k2 ≠ k) : lookupA (eraseA l k) k2 = lookupA l k2 := by
  simp [lookupA_eraseA, h]

theorem length_setA_le {α β : Type} [DecidableEq α] (l : List (α × β)) (k : α) (v : β) :
    (setA l k v).length ≤ l.length + 1 := by
  induction l with
  | nil => simp [setA]
  | cons p t ih =>
    by_cases h : p.1 = k
    · simp [setA, h]
    · simp only [setA, if_neg h, List.length_cons]
      omega

theorem length_eraseA_le {α β : Type} [DecidableEq α] (l : List (α × β)) (k : α) :
    (eraseA l k).length ≤ l.length :=
  List.length_filter_le _ l

theorem eraseA_of_lookupA_none {α β : Type} [DecidableEq α] (l : List (α × β)) (k : α)
    (h : lookupA l k = none) : eraseA l k = l := by
  induction l with
  | nil => rfl
  | cons p t ih =>
    simp only [lookupA] at h
    by_cases h1 : p.1 = k
    · rw [if_pos h1] at h
      exact absurd h (by simp)
    · rw [if_neg h1] at h
      have he : eraseA (p :: t) k = p :: eraseA t k := by
        simp [eraseA, List.filter_cons, h1]
      rw [he, ih h]

theorem setA_of_lookupA_self {α β : Type} [DecidableEq α] (l : List (α × β)) (k : α) (v : β)
    (h : lookupA l k = some v) : setA l k v = l := by
  induction l with
  | nil => simp [lookupA] at h
  | cons p t ih =>
    simp only [lookupA] at h
    cases p with
    | mk a b =>
      by_cases h1 : a = k
      · simp only [h1, if_pos rfl] at h
        have hv : b = v := by
          have := h
          simp at this
          exact this
        subst h1
        subst hv
        simp [setA]
      · simp only at h1
        rw [if_neg h1] at h
        simp [setA, if_neg h1, ih h]

theorem lookupA_mem {α β : Type} [DecidableEq α] (l : List (α × β)) (k : α) (v : β)
    (h : lookupA l k = some v) : (k, v) ∈ l := by
  induction l with
  | nil => simp [lookupA] at h
  | cons p t ih =>
    simp only [lookupA] at h
    cases p with
    | mk a b =>
      by_cases h1 : a = k
      · simp only [h1, if_pos rfl] at h
        have hv : b = v := by
          have := h
          simp at this
          exact this
        subst h1
        subst hv
        exact List.mem_cons_self _ _
      · simp only at h1
        rw [if_neg h1] at h
        exact List.mem_cons_of_mem _ (ih h)

/-- A socket found by `lookupA` that has joined the broadcast room is among
the recipients of `io.to(r)`. -/
theorem mem_roomRecipients (s : ServerState) (r : String) (m : Nat) (d : SockData)
    (h : lookupA s.socks m = some d) (h2 : d.ioRooms.contains r = true) :
    m ∈ roomRecipients s r := by
  have hm : (m, d) ∈ s.socks := lookupA_mem _ _ _ h
  unfold roomRecipients
  refine List.mem_map.mpr ⟨(m, d), ?_, rfl⟩
  exact List.mem_filter.mpr ⟨hm, h2⟩


/-! ### Invariants of reachable states -/

theorem roomsOK_setA (rl : List (String × Room)) (rid : String) (room : Room)
    (h : RoomsOK rl) (hr : GoodRoom room) : RoomsOK (setA rl rid room) := by
  intro r rm hlk
  by_cases he : r = rid
  · subst he
    rw [lookupA_setA_self] at hlk
    cases hlk
    exact hr
  · rw [lookupA_setA_ne _ _ _ _ he] at hlk
    exact h _ _ hlk

theorem roomsOK_eraseA (rl : List (String × Room)) (k : String)
    (h : RoomsOK rl) : RoomsOK (eraseA rl k) := by
  intro r rm hlk
  rw [lookupA_eraseA] at hlk
  by_cases he : r = k
  · simp [he] at hlk
  · rw [if_neg he] at hlk
    exact h _ _ hlk

theorem wf_createRoom (s : ServerState) (rid tok : String) (now : Nat)
    (h : WF s) : WF (createRoom s rid tok now) := by
  refine roomsOK_setA _ _ _ h ?_
  constructor
  · simp
  · intro sid hh
    simp at hh

theorem wf_timerFire (s : ServerState) (rid : String) (h : WF s) : WF (timerFire s rid) := by
  unfold timerFire
  cases hlk : lookupA s.rooms rid with
  | none => exact h
  | some room =>
    by_cases ht : room.cleanupTimer
    · by_cases hz : room.users.length = 0
      · simp only [ht, hz, if_true]
        exact roomsOK_eraseA _ _ h
      · simp only [ht, hz, if_true, if_false]
        refine roomsOK_setA _ _ _ h ?_
        have hg := h _ _ hlk
        exact ⟨hg.1, hg.2⟩
    · simp only [ht, if_false]
      exact h

theorem wf_connectSock (s : ServerState) (sid : Nat) (h : WF s) : WF (connectSock s sid) := h

theorem rooms_handleMessage (s : ServerState) (sid : Nat) (msg : String) (now : Nat) :
    (handleMessage s sid msg now).state.rooms = s.rooms := by
  unfold handleMessage
  repeat' split
  all_goals try rfl
  all_goals dsimp only
  all_goals split <;> rfl

theorem wf_handleMessage (s : ServerState) (sid : Nat) (msg : String) (now : Nat)
    (h : WF s) : WF (handleMessage s sid msg now).state := by
  unfold WF
  rw [rooms_handleMessage]
  exact h

theorem state_handleTyping (s : ServerState) (sid : Nat) :
    (handleTyping s sid).state = s := by
  unfold handleTyping
  repeat' split
  all_goals rfl

theorem state_handleStopTyping (s : ServerState) (sid : Nat) :
    (handleStopTyping s sid).state = s := by
  unfold handleStopTyping
  repeat' split
  all_goals rfl

/-- The full-path result of a successful `join-room`, as an explicit record:
host (re)assignment when the presented token matches, truncated display name,
membership insertion, `socket.join`, the two broadcasts, and the `joinOk`
acknowledgment. -/
theorem handleJoinRoom_success (s : ServerState) (sid : Nat) (rid u tok : String)
    (room : Room) (d : SockData)
    (h0 : ¬(rid = "" ∨ u = ""))
    (hlk : lookupA s.rooms rid = some room)
    (hfull : room.users.length < 5)
    (hsk : lookupA s.socks sid = some d) :
    handleJoinRoom s sid rid u tok =
      (let hp : Room × SockData :=
        if tok ≠ "" ∧ tok = room.hostToken then
          ({ room with cleanupTimer := false, hostSocketId := some sid },
           { d with isHost := true })
        else ({ room with cleanupTimer := false }, d)
       let safeName := jsSlice u 32
       let room3 : Room := { hp.1 with users := setA hp.1.users sid safeName }
       let d2 : SockData :=
         { hp.2 with
           roomId := some rid, username := some safeName,
           ioRooms := if hp.2.ioRooms.contains rid then hp.2.ioRooms
                      else hp.2.ioRooms ++ [rid] }
       let s1 : ServerState :=
         { s with rooms := setA s.rooms rid room3, socks := setA s.socks sid d2 }
       let recips := roomRecipients s1 rid
       ⟨s1,
        [⟨recips, .system "join" (some safeName)⟩,
         ⟨recips, .participants (room3.users.map (fun p => p.2))⟩],
        some (.joinOk rid room3.users.length d2.isHost)⟩) := by
  unfold handleJoinRoom
  rw [if_neg h0, hlk]
  dsimp only
  rw [if_neg (by omega : ¬ room.users.length ≥ 5), hsk]

theorem goodRoom_clearTimer (room : Room) (hg : GoodRoom room) :
    GoodRoom { room with cleanupTimer := false } := ⟨hg.1, hg.2⟩

theorem wf_handleJoinRoom (s : ServerState) (sid : Nat) (rid u tok : String)
    (h : WF s) : WF (handleJoinRoom s sid rid u tok).state := by
  unfold handleJoinRoom
  by_cases h0 : rid = "" ∨ u = ""
  · rw [if_pos h0]; exact h
  · rw [if_neg h0]
    cases hlk : lookupA s.rooms rid with
    | none => exact h
    | some room =>
      have hg := h _ _ hlk
      dsimp only
      by_cases hfull : room.users.length ≥ 5
      · rw [if_pos hfull]
        exact roomsOK_setA _ _ _ h (goodRoom_clearTimer _ hg)
      · rw [if_neg hfull]
        cases hsk : lookupA s.socks sid with
        | none => exact h
        | some d =>
          dsimp only
          refine roomsOK_setA _ _ _ h ?_
          by_cases hm : tok ≠ "" ∧ tok = room.hostToken
          · rw [if_pos hm]
            constructor
            · calc (setA room.users sid (jsSlice u 32)).length
                  ≤ room.users.length + 1 := length_setA_le _ _ _
                _ ≤ 5 := by omega
            · intro sid2 hh
              simp only at hh
              cases hh
              rw [lookupA_setA_self]
              rfl
          · rw [if_neg hm]
            constructor
            · calc (setA room.users sid (jsSlice u 32)).length
                  ≤ room.users.length + 1 := length_setA_le _ _ _
                _ ≤ 5 := by omega
            · intro sid2 hh
              simp only at hh
              by_cases hs2 : sid2 = sid
              · subst hs2
                rw [lookupA_setA_self]
                rfl
              · rw [lookupA_setA_ne _ _ _ _ hs2]
                exact hg.2 sid2 hh

theorem wf_disconnectCleanup (s : ServerState) (sid : Nat)
    (h : WF s) : WF (disconnectCleanup s sid).1 := by
  unfold disconnectCleanup
  cases hsk : lookupA s.socks sid with
  | none => exact h
  | some d =>
    dsimp only
    cases hrd : d.roomId with
    | none => exact h
    | some rid =>
      dsimp only
      cases hlk : lookupA s.rooms rid with
      | none => exact h
      | some room =>
        have hg := h _ _ hlk
        have hg1 : GoodRoom
            { room with
              users := eraseA room.users sid,
              hostSocketId := if room.hostSocketId = some sid then none
                              else room.hostSocketId } := by
          constructor
          · exact le_trans (length_eraseA_le _ _) hg.1
          · intro h2 hh
            simp only at hh
            by_cases hsid : room.hostSocketId = some sid
            · rw [if_pos hsid] at hh
              cases hh
            · rw [if_neg hsid] at hh
              have hne : h2 ≠ sid := fun he => hsid (he ▸ hh)
              rw [lookupA_eraseA_ne _ _ _ hne]
              exact hg.2 h2 hh
        dsimp only
        by_cases hz : (eraseA room.users sid).length = 0
        · rw [if_pos hz]
          exact roomsOK_eraseA _ _ (roomsOK_setA _ _ _ h hg1)
        · rw [if_neg hz]
          exact roomsOK_setA _ _ _ h hg1

theorem wf_doDisconnect (s : ServerState) (sid : Nat)
    (h : WF s) : WF (doDisconnect s sid).1 := by
  unfold doDisconnect
  cases hsk : lookupA s.socks sid with
  | none => exact h
  | some d =>
    dsimp only
    exact wf_disconnectCleanup _ _ h

theorem wf_closeStep (acc : ServerState × List Emit) (sid : Nat)
    (h : WF acc.1) : WF (closeStep acc sid).1 := by
  unfold closeStep
  cases hsk : lookupA acc.1.socks sid with
  | none => exact h
  | some d =>
    dsimp only
    exact wf_doDisconnect _ _ h

theorem wf_closeFold (sids : List Nat) (acc : ServerState × List Emit)
    (h : WF acc.1) : WF (closeFold sids acc).1 := by
  induction sids generalizing acc with
  | nil => exact h
  | cons x t ih =>
    exact ih _ (wf_closeStep _ _ h)

theorem wf_handleCloseRoom (s : ServerState) (rid tok : String)
    (h : WF s) : WF (handleCloseRoom s rid tok).state := by
  unfold handleCloseRoom
  cases hlk : lookupA s.rooms rid with
  | none => exact h
  | some room =>
    dsimp only
    by_cases ht : tok ≠ room.hostToken
    · rw [if_pos ht]; exact h
    · rw [if_neg ht]
      exact roomsOK_eraseA _ _ (wf_closeFold _ _ h)

/-- Every event handler preserves the per-room invariants. -/
theorem wf_stepState (s : ServerState) (e : Event) (h : WF s) : WF (stepState s e) := by
  cases e with
  | createRoom rid tok now => exact wf_createRoom _ _ _ _ h
  | timerFire rid => exact wf_timerFire _ _ h
  | connect sid => exact wf_connectSock _ _ h
  | joinRoom sid rid u tok => exact wf_handleJoinRoom _ _ _ _ _ h
  | message sid msg now => exact wf_handleMessage _ _ _ _ h
  | typing sid =>
      unfold stepState step
      rw [state_handleTyping]
      exact h
  | stopTyping sid =>
      unfold stepState step
      rw [state_handleStopTyping]
      exact h
  | closeRoom sid rid tok => exact wf_handleCloseRoom _ _ _ h
  | disconnect sid => exact wf_doDisconnect _ _ h

/-- Every state reachable from the empty initial state is well-formed. -/
theorem wf_run (evs : List Event) : WF (run initState evs) := by
  have hinit : WF initState := by
    intro r room hlk
    simp [initState, lookupA] at hlk
  have : ∀ s, WF s → WF (run s evs) := by
    induction evs with
    | nil => intro s hs; exact hs
    | cons e t ih =>
      intro s hs
      exact ih _ (wf_stepState s e hs)
  exact this _ hinit


/-! ### Claim theorems -/

/-- C3: the message rate limiter first drops timestamps outside the trailing
10-second window; if at least 10 remain the message is rejected with the
rate-limit error and no new timestamp is recorded; otherwise `now` is appended
and the message is accepted. -/
theorem message_rate_limit (s : ServerState) (sid : Nat) (d : SockData) (rid : String)
    (room : Room) (msg : String) (now : Nat)
    (hsk : lookupA s.socks sid = some d)
    (hrd : d.roomId = some rid)
    (hlk : lookupA s.rooms rid = some room) :
    (10 ≤ (d.msgTimestamps.filter (fun ts => now - ts < 10000)).length →
      (handleMessage s sid msg now).ack = some (.err "Rate limit exceeded. Slow down.") ∧
      (handleMessage s sid msg now).emits = [] ∧
      lookupA (handleMessage s sid msg now).state.socks sid =
        some { d with msgTimestamps := d.msgTimestamps.filter (fun ts => now - ts < 10000) }) ∧
    ((d.msgTimestamps.filter (fun ts => now - ts < 10000)).length < 10 →
      (handleMessage s sid msg now).ack = some .ok ∧
      lookupA (handleMessage s sid msg now).state.socks sid =
        some { d with msgTimestamps :=
                 d.msgTimestamps.filter (fun ts => now - ts < 10000) ++ [now] }) := by
  unfold handleMessage
  rw [hsk]
  dsimp only
  rw [hrd]
  dsimp only
  rw [hlk]
  dsimp only
  constructor
  · intro h10
    rw [if_pos h10]
    refine ⟨rfl, rfl, ?_⟩
    exact lookupA_setA_self _ _ _
  · intro h10
    rw [if_neg (by omega : ¬ (d.msgTimestamps.filter (fun ts => now - ts < 10000)).length ≥ 10)]
    refine ⟨rfl, ?_⟩
    exact lookupA_setA_self _ _ _

/-- C1: membership never exceeds 5 in any reachable state, and a join against
a room that already has 5 members fails with the capacity error and leaves
every membership mapping unchanged. -/
theorem capacity_invariant (evs : List Event) (rid u tok : String) (sid : Nat)
    (room : Room) :
    (lookupA (run initState evs).rooms rid = some room → room.users.length ≤ 5) ∧
    (lookupA (run initState evs).rooms rid = some room → room.users.length = 5 →
      rid ≠ "" → u ≠ "" →
      (handleJoinRoom (run initState evs) sid rid u tok).ack =
        some (.err "Room full (max 5)") ∧
      (lookupA (handleJoinRoom (run initState evs) sid rid u tok).state.rooms rid).map
        Room.users = some room.users ∧
      ∀ rid2, rid2 ≠ rid →
        lookupA (handleJoinRoom (run initState evs) sid rid u tok).state.rooms rid2 =
          lookupA (run initState evs).rooms rid2) := by
  constructor
  · intro hlk
    exact (wf_run evs rid room hlk).1
  · intro hlk h5 hr hu
    unfold handleJoinRoom
    rw [if_neg (by simp [hr, hu]), hlk]
    dsimp only
    rw [if_pos (by omega : room.users.length ≥ 5)]
    refine ⟨rfl, ?_, ?_⟩
    · rw [lookupA_setA_self]
      rfl
    · intro rid2 hne
      exact lookupA_setA_ne _ _ _ _ hne



/-- C4: in every reachable state a room's host, if set, is a single connection
that is a key of the membership map; and a join presenting the room's exact
host token makes the joiner the host (displacing any previous holder). -/
theorem host_invariant (evs : List Event) (s : ServerState) (sid : Nat)
    (rid u tok : String) (room : Room) (d : SockData) :
    (∀ room2 sid1 sid2, lookupA (run initState evs).rooms rid = some room2 →
      room2.hostSocketId = some sid1 → room2.hostSocketId = some sid2 → sid1 = sid2) ∧
    (∀ room2 sidh, lookupA (run initState evs).rooms rid = some room2 →
      room2.hostSocketId = some sidh → (lookupA room2.users sidh).isSome = true) ∧
    (rid ≠ "" → u ≠ "" → lookupA s.rooms rid = some room → room.users.length < 5 →
      lookupA s.socks sid = some d → tok ≠ "" → tok = room.hostToken →
      ∃ room3 d2,
        lookupA (handleJoinRoom s sid rid u tok).state.rooms rid = some room3 ∧
        room3.hostSocketId = some sid ∧
        lookupA (handleJoinRoom s sid rid u tok).state.socks sid = some d2 ∧
        d2.isHost = true) := by
  refine ⟨?_, ?_, ?_⟩
  · intro room2 sid1 sid2 hlk h1 h2
    rw [h1] at h2
    exact Option.some.inj h2
  · intro room2 sidh hlk hh
    exact (wf_run evs rid room2 hlk).2 sidh hh
  · intro hr hu hlk hfull hsk htne hteq
    rw [handleJoinRoom_success s sid rid u tok room d (by simp [hr, hu]) hlk hfull hsk]
    dsimp only
    rw [if_pos ⟨htne, hteq⟩]
    exact ⟨_, _, lookupA_setA_self _ _ _, rfl, lookupA_setA_self _ _ _, rfl⟩

/-- C7: a successful join cancels the pending expiry timer, registers the
member under its connection id with the display name truncated to 32
characters, broadcasts the join notice and updated roster to every member of
the room including the new joiner, and acknowledges with success, room id,
resulting member count, and host flag. -/
theorem join_success_contract (s : ServerState) (sid : Nat) (rid u tok : String)
    (room : Room) (d : SockData)
    (hr : rid ≠ "") (hu : u ≠ "")
    (hlk : lookupA s.rooms rid = some room)
    (hfull : room.users.length < 5)
    (hsk : lookupA s.socks sid = some d) :
    ∃ room3 d2,
      lookupA (handleJoinRoom s sid rid u tok).state.rooms rid = some room3 ∧
      room3.cleanupTimer = false ∧
      lookupA room3.users sid = some (jsSlice u 32) ∧
      lookupA (handleJoinRoom s sid rid u tok).state.socks sid = some d2 ∧
      d2.roomId = some rid ∧ d2.username = some (jsSlice u 32) ∧
      (handleJoinRoom s sid rid u tok).emits =
        [⟨roomRecipients (handleJoinRoom s sid rid u tok).state rid,
          .system "join" (some (jsSlice u 32))⟩,
         ⟨roomRecipients (handleJoinRoom s sid rid u tok).state rid,
          .participants (room3.users.map (fun p => p.2))⟩] ∧
      (handleJoinRoom s sid rid u tok).ack =
        some (.joinOk rid room3.users.length d2.isHost) ∧
      sid ∈ roomRecipients (handleJoinRoom s sid rid u tok).state rid ∧
      ((∀ m, (lookupA room.users m).isSome = true →
          ∃ dm, lookupA s.socks m = some dm ∧ dm.ioRooms.contains rid = true) →
        ∀ m, (lookupA room.users m).isSome = true →
          m ∈ roomRecipients (handleJoinRoom s sid rid u tok).state rid) := by
  rw [handleJoinRoom_success s sid rid u tok room d (by simp [hr, hu]) hlk hfull hsk]
  dsimp only
  by_cases hm : tok ≠ "" ∧ tok = room.hostToken
  · rw [if_pos hm]
    dsimp only
    refine ⟨_, _, lookupA_setA_self _ _ _, rfl, lookupA_setA_self _ _ _,
      lookupA_setA_self _ _ _, rfl, rfl, rfl, rfl, ?_, ?_⟩
    · refine mem_roomRecipients _ _ _ _ (lookupA_setA_self _ _ _) ?_
      dsimp only
      by_cases hc : (({ d with isHost := true } : SockData).ioRooms).contains rid = true
      · rw [if_pos hc]
        exact hc
      · rw [if_neg hc]
        simp
    · intro hmem m hm2
      by_cases hms : m = sid
      · subst hms
        refine mem_roomRecipients _ _ _ _ (lookupA_setA_self _ _ _) ?_
        dsimp only
        by_cases hc : (({ d with isHost := true } : SockData).ioRooms).contains rid = true
        · rw [if_pos hc]
          exact hc
        · rw [if_neg hc]
          simp
      · obtain ⟨dm, hdm, hdc⟩ := hmem m hm2
        refine mem_roomRecipients _ _ m dm ?_ hdc
        dsimp only
        rw [lookupA_setA_ne _ _ _ _ hms]
        exact hdm
  · rw [if_neg hm]
    dsimp only
    refine ⟨_, _, lookupA_setA_self _ _ _, rfl, lookupA_setA_self _ _ _,
      lookupA_setA_self _ _ _, rfl, rfl, rfl, rfl, ?_, ?_⟩
    · refine mem_roomRecipients _ _ _ _ (lookupA_setA_self _ _ _) ?_
      dsimp only
      by_cases hc : d.ioRooms.contains rid = true
      · rw [if_pos hc]
        exact hc
      · rw [if_neg hc]
        simp
    · intro hmem m hm2
      by_cases hms : m = sid
      · subst hms
        refine mem_roomRecipients _ _ _ _ (lookupA_setA_self _ _ _) ?_
        dsimp only
        by_cases hc : d.ioRooms.contains rid = true
        · rw [if_pos hc]
          exact hc
        · rw [if_neg hc]
          simp
      · obtain ⟨dm, hdm, hdc⟩ := hmem m hm2
        refine mem_roomRecipients _ _ m dm ?_ hdc
        dsimp only
        rw [lookupA_setA_ne _ _ _ _ hms]
        exact hdm

/-- The close-room member loop only appends to the emit log. -/
theorem closeFold_emits_append (sids : List Nat) (acc : ServerState × List Emit) :
    ∃ rest, (closeFold sids acc).2 = acc.2 ++ rest := by
  induction sids generalizing acc with
  | nil => exact ⟨[], (List.append_nil _).symm⟩
  | cons x t ih =>
    have hstep : ∃ rest0, (closeStep acc x).2 = acc.2 ++ rest0 := by
      unfold closeStep
      cases lookupA acc.1.socks x with
      | none => exact ⟨[], (List.append_nil _).symm⟩
      | some d => exact ⟨(doDisconnect acc.1 x).2, rfl⟩
    obtain ⟨rest0, h0⟩ := hstep
    obtain ⟨rest1, h1⟩ := ih (closeStep acc x)
    refine ⟨rest0 ++ rest1, ?_⟩
    calc (closeFold t (closeStep acc x)).2 = (closeStep acc x).2 ++ rest1 := h1
      _ = acc.2 ++ rest0 ++ rest1 := by rw [h0]
      _ = acc.2 ++ (rest0 ++ rest1) := by rw [List.append_assoc]

/-- C5: a message from a session that is not joined to an existing room is
rejected with the not-in-room error and nothing is broadcast; an accepted
message is truncated to 1000 characters and broadcast as
`{from, text, ts}` to every member of the room including the sender, with a
success acknowledgment. -/
theorem message_contract (s : ServerState) (sid : Nat) (d : SockData)
    (msg : String) (now : Nat)
    (hsk : lookupA s.socks sid = some d) :
    (d.roomId = none → handleMessage s sid msg now = ⟨s, [], some (.err "Not in room")⟩) ∧
    (∀ rid, d.roomId = some rid → lookupA s.rooms rid = none →
      handleMessage s sid msg now = ⟨s, [], some (.err "Not in room")⟩) ∧
    (∀ rid room, d.roomId = some rid → lookupA s.rooms rid = some room →
      (d.msgTimestamps.filter (fun ts => now - ts < 10000)).length < 10 →
      (handleMessage s sid msg now).ack = some .ok ∧
      (handleMessage s sid msg now).emits =
        [⟨roomRecipients (handleMessage s sid msg now).state rid,
          .message d.username (jsSlice msg 1000) now⟩] ∧
      (d.ioRooms.contains rid = true →
        sid ∈ roomRecipients (handleMessage s sid msg now).state rid) ∧
      ((∀ m, (lookupA room.users m).isSome = true →
          ∃ dm, lookupA s.socks m = some dm ∧ dm.ioRooms.contains rid = true) →
        ∀ m, (lookupA room.users m).isSome = true →
          m ∈ roomRecipients (handleMessage s sid msg now).state rid)) := by
  unfold handleMessage
  rw [hsk]
  dsimp only
  refine ⟨?_, ?_, ?_⟩
  · intro h
    rw [h]
  · intro rid hrid hlk
    rw [hrid]
    dsimp only
    rw [hlk]
  · intro rid room hrid hlk hlen
    rw [hrid]
    dsimp only
    rw [hlk]
    dsimp only
    rw [if_neg (by omega :
      ¬ (d.msgTimestamps.filter (fun ts => now - ts < 10000)).length ≥ 10)]
    refine ⟨rfl, rfl, ?_, ?_⟩
    · intro hc
      exact mem_roomRecipients _ _ _ _ (lookupA_setA_self _ _ _) hc
    · intro hmem m hm2
      obtain ⟨dm, hdm, hdc⟩ := hmem m hm2
      by_cases hms : m = sid
      · subst hms
        rw [hsk] at hdm
        cases hdm
        exact mem_roomRecipients _ _ _ _ (lookupA_setA_self _ _ _) hdc
      · refine mem_roomRecipients _ _ m dm ?_ hdc
        dsimp only
        rw [lookupA_setA_ne _ _ _ _ hms]
        exact hdm

/-- C2: close-room fails with the not-found or invalid-token error leaving the
whole state untouched; with the matching token it broadcasts the room-closed
notice to the room's members first, deletes the room entry, and a subsequent
room-info lookup reports not-found. -/
theorem close_contract (s : ServerState) (rid tok : String) :
    (lookupA s.rooms rid = none →
      handleCloseRoom s rid tok = ⟨s, [], some (.err "Room not found")⟩) ∧
    (∀ room, lookupA s.rooms rid = some room → tok ≠ room.hostToken →
      handleCloseRoom s rid tok = ⟨s, [], some (.err "Invalid host token")⟩) ∧
    (∀ room, lookupA s.rooms rid = some room → tok = room.hostToken →
      (handleCloseRoom s rid tok).ack = some .ok ∧
      (handleCloseRoom s rid tok).emits.head? =
        some ⟨roomRecipients s rid, .system "room-closed" none⟩ ∧
      ((∀ m, (lookupA room.users m).isSome = true →
          ∃ dm, lookupA s.socks m = some dm ∧ dm.ioRooms.contains rid = true) →
        ∀ m, (lookupA room.users m).isSome = true → m ∈ roomRecipients s rid) ∧
      lookupA (handleCloseRoom s rid tok).state.rooms rid = none ∧
      roomInfo (handleCloseRoom s rid tok).state rid = none) := by
  refine ⟨?_, ?_, ?_⟩
  · intro h
    unfold handleCloseRoom
    rw [h]
  · intro room hlk ht
    unfold handleCloseRoom
    rw [hlk]
    dsimp only
    rw [if_pos ht]
  · intro room hlk ht
    have hnone : lookupA (handleCloseRoom s rid tok).state.rooms rid = none := by
      unfold handleCloseRoom
      rw [hlk]
      dsimp only
      rw [if_neg (by simp [ht])]
      exact lookupA_eraseA_self _ _
    refine ⟨?_, ?_, ?_, hnone, ?_⟩
    · unfold handleCloseRoom
      rw [hlk]
      dsimp only
      rw [if_neg (by simp [ht])]
    · unfold handleCloseRoom
      rw [hlk]
      dsimp only
      rw [if_neg (by simp [ht])]
      dsimp only
      obtain ⟨rest, hr⟩ := closeFold_emits_append (room.users.map (fun p => p.1))
        (s, [⟨roomRecipients s rid, .system "room-closed" none⟩])
      rw [hr]
      rfl
    · intro hmem m hm2
      obtain ⟨dm, hdm, hdc⟩ := hmem m hm2
      exact mem_roomRecipients _ _ m dm hdm hdc
    · unfold roomInfo
      rw [hnone]
      rfl

/-- C9: the disconnect cleanup is a no-op on the room registry when the
disconnecting connection is not a member of its recorded room (or records no
room, or the room is gone): membership, host assignment and the registry
entry are all unchanged.  The hypotheses `hhost` and `hne` hold in every
reachable such state: the host is always a member (see `wf_run`), and a room
some session points to is non-empty. -/
theorem leave_idempotent (s : ServerState) (sid : Nat) (d : SockData)
    (hsk : lookupA s.socks sid = some d) :
    (d.roomId = none → (doDisconnect s sid).1.rooms = s.rooms) ∧
    (∀ rid, d.roomId = some rid → lookupA s.rooms rid = none →
      (doDisconnect s sid).1.rooms = s.rooms) ∧
    (∀ rid room, d.roomId = some rid → lookupA s.rooms rid = some room →
      lookupA room.users sid = none → room.hostSocketId ≠ some sid →
      room.users ≠ [] →
      (doDisconnect s sid).1.rooms = s.rooms) := by
  unfold doDisconnect
  rw [hsk]
  dsimp only
  unfold disconnectCleanup
  rw [lookupA_setA_self]
  dsimp only
  refine ⟨?_, ?_, ?_⟩
  · intro h
    rw [h]
  · intro rid hrid hlk
    rw [hrid]
    dsimp only
    rw [hlk]
  · intro rid room hrid hlk hnomem hhost hne
    rw [hrid]
    dsimp only
    rw [hlk]
    dsimp only
    rw [if_neg hhost, eraseA_of_lookupA_none _ _ hnomem]
    rw [if_neg (by
      intro h0
      exact hne (List.length_eq_zero.mp h0))]
    exact setA_of_lookupA_self _ _ _ hlk

theorem socks_timerFire (s : ServerState) (rid : String) :
    (timerFire s rid).socks = s.socks := by
  unfold timerFire
  repeat' split
  all_goals rfl

theorem socks_disconnectCleanup (s : ServerState) (sid : Nat) :
    (disconnectCleanup s sid).1.socks = s.socks := by
  unfold disconnectCleanup
  repeat' split
  all_goals try rfl
  all_goals dsimp only
  all_goals split <;> rfl

theorem lookupA_socks_doDisconnect (s : ServerState) (sid sid2 : Nat) :
    lookupA (doDisconnect s sid).1.socks sid2 =
      if sid2 = sid then none else lookupA s.socks sid2 := by
  unfold doDisconnect
  cases hsk : lookupA s.socks sid with
  | none =>
    dsimp only
    by_cases h : sid2 = sid
    · rw [if_pos h, h]
      exact hsk
    · rw [if_neg h]
  | some d =>
    dsimp only
    rw [socks_disconnectCleanup]
    dsimp only
    by_cases h : sid2 = sid
    · subst h
      rw [if_pos rfl]
      exact lookupA_eraseA_self _ _
    · rw [if_neg h, lookupA_eraseA_ne _ _ _ h, lookupA_setA_ne _ _ _ _ h]

theorem lookupA_socks_closeStep (acc : ServerState × List Emit) (x sid2 : Nat) :
    lookupA (closeStep acc x).1.socks sid2 =
      if sid2 = x then none else lookupA acc.1.socks sid2 := by
  unfold closeStep
  cases hsk : lookupA acc.1.socks x with
  | none =>
    dsimp only
    by_cases h : sid2 = x
    · rw [if_pos h, h]
      exact hsk
    · rw [if_neg h]
  | some d =>
    dsimp only
    exact lookupA_socks_doDisconnect _ _ _

theorem lookupA_socks_closeFold (sids : List Nat) (acc : ServerState × List Emit)
    (sid2 : Nat) :
    lookupA (closeFold sids acc).1.socks sid2 = none ∨
    lookupA (closeFold sids acc).1.socks sid2 = lookupA acc.1.socks sid2 := by
  induction sids generalizing acc with
  | nil => exact Or.inr rfl
  | cons x t ih =>
    have hcf : closeFold (x :: t) acc = closeFold t (closeStep acc x) := rfl
    rw [hcf]
    rcases ih (closeStep acc x) with h | h
    · exact Or.inl h
    · rw [h, lookupA_socks_closeStep]
      by_cases hx : sid2 = x
      · rw [if_pos hx]
        exact Or.inl rfl
      · rw [if_neg hx]
        exact Or.inr rfl

/-- The socket map after a join: unchanged, or one entry set with the joined
room recorded in the session. -/
theorem socks_handleJoinRoom (s : ServerState) (sid : Nat) (rid u tok : String) :
    (handleJoinRoom s sid rid u tok).state.socks = s.socks ∨
    ∃ d2, (handleJoinRoom s sid rid u tok).state.socks = setA s.socks sid d2 ∧
      d2.roomId = some rid := by
  unfold handleJoinRoom
  by_cases h0 : rid = "" ∨ u = ""
  · rw [if_pos h0]
    exact Or.inl rfl
  · rw [if_neg h0]
    cases hlk : lookupA s.rooms rid with
    | none => exact Or.inl rfl
    | some room =>
      dsimp only
      by_cases hfull : room.users.length ≥ 5
      · rw [if_pos hfull]
        exact Or.inl rfl
      · rw [if_neg hfull]
        cases hsk : lookupA s.socks sid with
        | none => exact Or.inl rfl
        | some d =>
          dsimp only
          exact Or.inr ⟨_, rfl, rfl⟩

/-- The socket map after a message: unchanged, or one entry's rate-limit
window updated (same session room). -/
theorem socks_handleMessage (s : ServerState) (sid : Nat) (msg : String) (now : Nat) :
    (handleMessage s sid msg now).state.socks = s.socks ∨
    ∃ d w, lookupA s.socks sid = some d ∧
      (handleMessage s sid msg now).state.socks =
        setA s.socks sid { d with msgTimestamps := w } := by
  unfold handleMessage
  cases hsk : lookupA s.socks sid with
  | none => exact Or.inl rfl
  | some d =>
    dsimp only
    cases hrd : d.roomId with
    | none => exact Or.inl rfl
    | some rid =>
      dsimp only
      cases hlk : lookupA s.rooms rid with
      | none => exact Or.inl rfl
      | some room =>
        dsimp only
        by_cases h10 : (d.msgTimestamps.filter (fun ts => now - ts < 10000)).length ≥ 10
        · rw [if_pos h10]
          refine Or.inr ⟨d, d.msgTimestamps.filter (fun ts => now - ts < 10000), rfl, ?_⟩
          rw [← hrd]
        · rw [if_neg h10]
          refine Or.inr
            ⟨d, d.msgTimestamps.filter (fun ts => now - ts < 10000) ++ [now], rfl, ?_⟩
          rw [← hrd]

/-- C8 counterexample: after joining room "A", a second `join-room` for room
"B" from the same connection succeeds and the connection is simultaneously a
member of both rooms' membership maps. -/
theorem join_second_room_counterexample :
    ((lookupA (run initState [.createRoom "A" "tA" 0, .createRoom "B" "tB" 0, .connect 1,
        .joinRoom 1 "A" "u" "", .joinRoom 1 "B" "u" ""]).rooms "A").map
      (fun room => (lookupA room.users 1).isSome)) = some true ∧
    ((lookupA (run initState [.createRoom "A" "tA" 0, .createRoom "B" "tB" 0, .connect 1,
        .joinRoom 1 "A" "u" "", .joinRoom 1 "B" "u" ""]).rooms "B").map
      (fun room => (lookupA room.users 1).isSome)) = some true := by
  decide

/-- C8 amended: a joined session never returns to the no-room state except by
disappearing (disconnect, or forced disconnect on room closure) — but the
join-room handler performs no membership check, so a second join from an
already-joined connection does make it a member of a second room, leaving the
stale membership behind in the first. -/
theorem join_one_way_amended (s : ServerState) (e : Event) (sid : Nat) (d : SockData) :
    (lookupA s.socks sid = some d → d.roomId.isSome = true → e ≠ .connect sid →
      ∀ d2, lookupA (stepState s e).socks sid = some d2 → d2.roomId.isSome = true) ∧
    (∀ rid1 room1 rid2 room2 u tok,
      lookupA s.socks sid = some d → d.roomId = some rid1 →
      lookupA s.rooms rid1 = some room1 → (lookupA room1.users sid).isSome = true →
      rid2 ≠ rid1 → rid2 ≠ "" → u ≠ "" →
      lookupA s.rooms rid2 = some room2 → room2.users.length < 5 →
      ∃ room1b room2b,
        lookupA (handleJoinRoom s sid rid2 u tok).state.rooms rid1 = some room1b ∧
        (lookupA room1b.users sid).isSome = true ∧
        lookupA (handleJoinRoom s sid rid2 u tok).state.rooms rid2 = some room2b ∧
        (lookupA room2b.users sid).isSome = true ∧
        ∀ d2, lookupA (handleJoinRoom s sid rid2 u tok).state.socks sid = some d2 →
          d2.roomId = some rid2) := by
  constructor
  · intro hsk hrd hne d2 h2
    cases e with
    | createRoom rid tok now =>
      unfold stepState step createRoom at h2
      dsimp only at h2
      rw [hsk] at h2
      cases h2
      exact hrd
    | timerFire rid =>
      unfold stepState step at h2
      rw [socks_timerFire, hsk] at h2
      cases h2
      exact hrd
    | connect sid2 =>
      unfold stepState step connectSock at h2
      dsimp only at h2
      have hs2 : sid2 ≠ sid := fun h => hne (h ▸ rfl)
      rw [lookupA_setA_ne _ _ _ _ (fun h => hs2 h.symm), hsk] at h2
      cases h2
      exact hrd
    | joinRoom sidJ rid u tok =>
      rcases socks_handleJoinRoom s sidJ rid u tok with h | ⟨dJ, hJ, hJr⟩
      · unfold stepState step at h2
        rw [h, hsk] at h2
        cases h2
        exact hrd
      · unfold stepState step at h2
        rw [hJ] at h2
        by_cases hx : sid = sidJ
        · subst hx
          rw [lookupA_setA_self] at h2
          cases h2
          rw [hJr]
          rfl
        · rw [lookupA_setA_ne _ _ _ _ hx, hsk] at h2
          cases h2
          exact hrd
    | message sidM msg now =>
      rcases socks_handleMessage s sidM msg now with h | ⟨dM, w, hM, hMs⟩
      · unfold stepState step at h2
        rw [h, hsk] at h2
        cases h2
        exact hrd
      · unfold stepState step at h2
        rw [hMs] at h2
        by_cases hx : sid = sidM
        · subst hx
          rw [lookupA_setA_self] at h2
          rw [hsk] at hM
          cases hM
          cases h2
          exact hrd
        · rw [lookupA_setA_ne _ _ _ _ hx, hsk] at h2
          cases h2
          exact hrd
    | typing sidT =>
      unfold stepState step at h2
      rw [state_handleTyping, hsk] at h2
      cases h2
      exact hrd
    | stopTyping sidT =>
      unfold stepState step at h2
      rw [state_handleStopTyping, hsk] at h2
      cases h2
      exact hrd
    | closeRoom sidC rid tok =>
      unfold stepState step handleCloseRoom at h2
      dsimp only at h2
      cases hlk : lookupA s.rooms rid with
      | none =>
        rw [hlk] at h2
        dsimp only at h2
        rw [hsk] at h2
        cases h2
        exact hrd
      | some room =>
        rw [hlk] at h2
        dsimp only at h2
        by_cases ht : tok ≠ room.hostToken
        · rw [if_pos ht] at h2
          dsimp only at h2
          rw [hsk] at h2
          cases h2
          exact hrd
        · rw [if_neg ht] at h2
          dsimp only at h2
          rcases lookupA_socks_closeFold (room.users.map (fun p => p.1))
            (s, [⟨roomRecipients s rid, .system "room-closed" none⟩]) sid with hc | hc
          · rw [hc] at h2
            cases h2
          · rw [hc] at h2
            dsimp only at h2
            rw [hsk] at h2
            cases h2
            exact hrd
    | disconnect sidD =>
      unfold stepState step at h2
      dsimp only at h2
      rw [lookupA_socks_doDisconnect] at h2
      by_cases hx : sid = sidD
      · rw [if_pos hx] at h2
        cases h2
      · rw [if_neg hx, hsk] at h2
        cases h2
        exact hrd
  · intro rid1 room1 rid2 room2 u tok hsk hrd hlk1 hmem1 hne12 hr2 hu2 hlk2 hfull2
    rw [handleJoinRoom_success s sid rid2 u tok room2 d (by simp [hr2, hu2]) hlk2 hfull2 hsk]
    dsimp only
    refine ⟨room1, _, ?_, hmem1, lookupA_setA_self _ _ _, ?_, ?_⟩
    · rw [lookupA_setA_ne _ _ _ _ hne12.symm]
      exact hlk1
    · dsimp only
      rw [lookupA_setA_self]
      simp
    · intro d2 h2
      rw [lookupA_setA_self] at h2
      cases h2
      rfl

/-- C10 counterexample: two reachable states with identical registries where
only the caller's session differs (which room it last joined); the same
close-room request succeeds in both but leaves different registries behind,
because the forced disconnect of the caller cleans up whichever room its
session currently records. -/
theorem close_session_dependence_counterexample :
    (run initState [.createRoom "R" "tR" 0, .createRoom "B" "tB" 0, .connect 1,
       .joinRoom 1 "B" "u" "", .joinRoom 1 "R" "u" ""]).rooms =
      (run initState [.createRoom "R" "tR" 0, .createRoom "B" "tB" 0, .connect 1,
       .joinRoom 1 "R" "u" "", .joinRoom 1 "B" "u" ""]).rooms ∧
    (step (run initState [.createRoom "R" "tR" 0, .createRoom "B" "tB" 0, .connect 1,
       .joinRoom 1 "B" "u" "", .joinRoom 1 "R" "u" ""]) (.closeRoom 1 "R" "tR")).ack =
      (step (run initState [.createRoom "R" "tR" 0, .createRoom "B" "tB" 0, .connect 1,
       .joinRoom 1 "R" "u" "", .joinRoom 1 "B" "u" ""]) (.closeRoom 1 "R" "tR")).ack ∧
    (stepState (run initState [.createRoom "R" "tR" 0, .createRoom "B" "tB" 0, .connect 1,
       .joinRoom 1 "B" "u" "", .joinRoom 1 "R" "u" ""]) (.closeRoom 1 "R" "tR")).rooms ≠
      (stepState (run initState [.createRoom "R" "tR" 0, .createRoom "B" "tB" 0, .connect 1,
       .joinRoom 1 "R" "u" "", .joinRoom 1 "B" "u" ""]) (.closeRoom 1 "R" "tR")).rooms := by
  decide

/-- C10 amended: the close-room acknowledgment and the fate of the target
room are determined solely by the payload and the registry — the handler
never consults the caller's session, so any connection presenting the
correct token closes the room — but the rest of the resulting registry may
differ through the forced-disconnect cleanup of member sessions. -/
theorem close_payload_determined (s1 s2 : ServerState) (rid tok : String)
    (h : s1.rooms = s2.rooms) :
    (handleCloseRoom s1 rid tok).ack = (handleCloseRoom s2 rid tok).ack ∧
    lookupA (handleCloseRoom s1 rid tok).state.rooms rid =
      lookupA (handleCloseRoom s2 rid tok).state.rooms rid := by
  unfold handleCloseRoom
  rw [h]
  cases hlk : lookupA s2.rooms rid with
  | none => exact ⟨rfl, by rw [h]⟩
  | some room =>
    dsimp only
    by_cases ht : tok ≠ room.hostToken
    · rw [if_pos ht, if_pos ht]
      exact ⟨rfl, by rw [h]⟩
    · rw [if_neg ht, if_neg ht]
      refine ⟨rfl, ?_⟩
      rw [lookupA_eraseA_self, lookupA_eraseA_self]

/-- A present room survives a join (a join never deletes rooms). -/
theorem rooms_handleJoinRoom_isSome (s : ServerState) (sid : Nat)
    (rid2 u tok r : String) (rm : Room)
    (hlk : lookupA s.rooms r = some rm) :
    (lookupA (handleJoinRoom s sid rid2 u tok).state.rooms r).isSome = true := by
  unfold handleJoinRoom
  by_cases h0 : rid2 = "" ∨ u = ""
  · rw [if_pos h0]
    rw [hlk]
    rfl
  · rw [if_neg h0]
    cases hlk2 : lookupA s.rooms rid2 with
    | none =>
      rw [hlk]
      rfl
    | some room =>
      dsimp only
      by_cases hfull : room.users.length ≥ 5
      · rw [if_pos hfull]
        dsimp only
        by_cases he : r = rid2
        · subst he
          rw [lookupA_setA_self]
          rfl
        · rw [lookupA_setA_ne _ _ _ _ he, hlk]
          rfl
      · rw [if_neg hfull]
        cases hsk : lookupA s.socks sid with
        | none =>
          rw [hlk]
          rfl
        | some d =>
          dsimp only
          by_cases he : r = rid2
          · subst he
            rw [lookupA_setA_self]
            rfl
          · rw [lookupA_setA_ne _ _ _ _ he, hlk]
            rfl

/-- If a disconnect removes room `rid` from the registry, the disconnecting
socket's session pointed at `rid` and its removal emptied the membership. -/
theorem doDisconnect_removal (s : ServerState) (x : Nat) (rid : String) (r : Room)
    (hlk : lookupA s.rooms rid = some r)
    (hnone : lookupA (doDisconnect s x).1.rooms rid = none) :
    CleanupEmpties s x rid := by
  unfold doDisconnect at hnone
  cases hsk : lookupA s.socks x with
  | none =>
    rw [hsk] at hnone
    dsimp only at hnone
    rw [hlk] at hnone
    cases hnone
  | some d =>
    rw [hsk] at hnone
    dsimp only at hnone
    unfold disconnectCleanup at hnone
    rw [lookupA_setA_self] at hnone
    dsimp only at hnone
    cases hrd : d.roomId with
    | none =>
      rw [hrd] at hnone
      dsimp only at hnone
      rw [hlk] at hnone
      cases hnone
    | some rid2 =>
      rw [hrd] at hnone
      dsimp only at hnone
      cases hlk2 : lookupA s.rooms rid2 with
      | none =>
        rw [hlk2] at hnone
        dsimp only at hnone
        rw [hlk] at hnone
        cases hnone
      | some rx =>
        rw [hlk2] at hnone
        dsimp only at hnone
        by_cases hz : (eraseA rx.users x).length = 0
        · rw [if_pos hz] at hnone
          dsimp only at hnone
          rw [lookupA_eraseA] at hnone
          by_cases he : rid = rid2
          · subst he
            rw [hlk] at hlk2
            cases hlk2
            exact ⟨d, r, hsk, hrd, hlk, hz⟩
          · rw [if_neg he, lookupA_setA_ne _ _ _ _ he, hlk] at hnone
            cases hnone
        · rw [if_neg hz] at hnone
          dsimp only at hnone
          by_cases he : rid = rid2
          · subst he
            rw [lookupA_setA_self] at hnone
            cases hnone
          · rw [lookupA_setA_ne _ _ _ _ he, hlk] at hnone
            cases hnone

/-- Conversely, when `CleanupEmpties` holds the disconnect does delete the
room. -/
theorem doDisconnect_removes (s : ServerState) (x : Nat) (rid : String)
    (h : CleanupEmpties s x rid) :
    lookupA (doDisconnect s x).1.rooms rid = none := by
  obtain ⟨dx, rx, hsk, hrd, hlk, hz⟩ := h
  unfold doDisconnect
  rw [hsk]
  dsimp only
  unfold disconnectCleanup
  rw [lookupA_setA_self]
  dsimp only
  rw [hrd]
  dsimp only
  rw [hlk]
  dsimp only
  rw [if_pos hz]
  dsimp only
  exact lookupA_eraseA_self _ _

/-- If the close-room member loop removes room `rid`, some processed member's
cleanup (at its intermediate state) emptied and deleted `rid`. -/
theorem closeFold_removal (sids : List Nat) (acc : ServerState × List Emit)
    (rid : String)
    (hlk : (lookupA acc.1.rooms rid).isSome = true)
    (hnone : lookupA (closeFold sids acc).1.rooms rid = none) :
    ∃ pre x post, sids = pre ++ x :: post ∧
      CleanupEmpties (closeFold pre acc).1 x rid := by
  induction sids generalizing acc with
  | nil =>
    rw [show closeFold [] acc = acc from rfl] at hnone
    rw [hnone] at hlk
    cases hlk
  | cons y t ih =>
    have hcf : closeFold (y :: t) acc = closeFold t (closeStep acc y) := rfl
    rw [hcf] at hnone
    cases hmid : lookupA (closeStep acc y).1.rooms rid with
    | none =>
      refine ⟨[], y, t, rfl, ?_⟩
      rw [show closeFold [] acc = acc from rfl]
      unfold closeStep at hmid
      cases hsk : lookupA acc.1.socks y with
      | none =>
        rw [hsk] at hmid
        dsimp only at hmid
        rw [hmid] at hlk
        cases hlk
      | some d =>
        rw [hsk] at hmid
        dsimp only at hmid
        obtain ⟨r0, h0⟩ := Option.isSome_iff_exists.mp hlk
        exact doDisconnect_removal _ _ _ r0 h0 hmid
    | some r2 =>
      obtain ⟨pre, x, post, hdec, hce⟩ :=
        ih (closeStep acc y) (by rw [hmid]; rfl) hnone
      refine ⟨y :: pre, x, post, by rw [hdec, List.cons_append], ?_⟩
      rw [show closeFold (y :: pre) acc = closeFold pre (closeStep acc y) from rfl]
      exact hce

/-- C6: a room leaves the registry only through (a) a close-room presenting
its host token, (b) a disconnect cleanup (client disconnect, or forced
disconnect of a member during a close of another room) that empties its
membership, or (c) its creation-time expiry timer firing while the room is
still empty; the timer deletes the room iff it is still empty when it fires,
and any join to the room clears a pending timer. -/
theorem room_removal_characterization (s : ServerState) (e : Event)
    (rid : String) (room : Room)
    (hlk : lookupA s.rooms rid = some room) :
    (lookupA (stepState s e).rooms rid = none →
      (∃ sidC tok, e = .closeRoom sidC rid tok ∧ tok = room.hostToken) ∨
      (∃ sidD, e = .disconnect sidD ∧ CleanupEmpties s sidD rid) ∨
      (e = .timerFire rid ∧ room.cleanupTimer = true ∧ room.users = []) ∨
      (∃ sidC rid2 tok2 room2, e = .closeRoom sidC rid2 tok2 ∧ rid2 ≠ rid ∧
        lookupA s.rooms rid2 = some room2 ∧ tok2 = room2.hostToken ∧
        ∃ pre x post, room2.users.map (fun p => p.1) = pre ++ x :: post ∧
          CleanupEmpties (closeFold pre (s, [⟨roomRecipients s rid2,
            .system "room-closed" none⟩])).1 x rid)) ∧
    (room.cleanupTimer = true →
      (lookupA (timerFire s rid).rooms rid = none ↔ room.users = [])) ∧
    (∀ sid d u tok2, rid ≠ "" → u ≠ "" → lookupA s.socks sid = some d →
      ∀ room2, lookupA (handleJoinRoom s sid rid u tok2).state.rooms rid = some room2 →
        room2.cleanupTimer = false) ∧
    lookupA (handleCloseRoom s rid room.hostToken).state.rooms rid = none ∧
    (∀ sidD, CleanupEmpties s sidD rid →
      lookupA (stepState s (.disconnect sidD)).rooms rid = none) := by
  refine ⟨?_, ?_, ?_, ?_, ?_⟩
  · intro hnone
    cases e with
    | createRoom rid2 tok2 now =>
      unfold stepState step createRoom at hnone
      dsimp only at hnone
      by_cases he : rid = rid2
      · subst he
        rw [lookupA_setA_self] at hnone
        cases hnone
      · rw [lookupA_setA_ne _ _ _ _ he, hlk] at hnone
        cases hnone
    | timerFire rid2 =>
      unfold stepState step timerFire at hnone
      dsimp only at hnone
      cases hlk2 : lookupA s.rooms rid2 with
      | none =>
        rw [hlk2] at hnone
        dsimp only at hnone
        rw [hlk] at hnone
        cases hnone
      | some room2 =>
        rw [hlk2] at hnone
        dsimp only at hnone
        by_cases ht : room2.cleanupTimer
        · rw [if_pos ht] at hnone
          by_cases hz : room2.users.length = 0
          · rw [if_pos hz] at hnone
            dsimp only at hnone
            rw [lookupA_eraseA] at hnone
            by_cases he : rid = rid2
            · subst he
              rw [hlk] at hlk2
              cases hlk2
              refine Or.inr (Or.inr (Or.inl ⟨rfl, ht, ?_⟩))
              exact List.length_eq_zero.mp hz
            · rw [if_neg he, hlk] at hnone
              cases hnone
          · rw [if_neg hz] at hnone
            dsimp only at hnone
            by_cases he : rid = rid2
            · subst he
              rw [lookupA_setA_self] at hnone
              cases hnone
            · rw [lookupA_setA_ne _ _ _ _ he, hlk] at hnone
              cases hnone
        · rw [if_neg ht] at hnone
          rw [hlk] at hnone
          cases hnone
    | connect sid2 =>
      unfold stepState step connectSock at hnone
      dsimp only at hnone
      rw [hlk] at hnone
      cases hnone
    | joinRoom sidJ rid2 u tok =>
      have := rooms_handleJoinRoom_isSome s sidJ rid2 u tok rid room hlk
      unfold stepState step at hnone
      rw [hnone] at this
      cases this
    | message sidM msg now =>
      unfold stepState step at hnone
      rw [rooms_handleMessage, hlk] at hnone
      cases hnone
    | typing sidT =>
      unfold stepState step at hnone
      rw [state_handleTyping, hlk] at hnone
      cases hnone
    | stopTyping sidT =>
      unfold stepState step at hnone
      rw [state_handleStopTyping, hlk] at hnone
      cases hnone
    | closeRoom sidC rid2 tok2 =>
      unfold stepState step handleCloseRoom at hnone
      dsimp only at hnone
      cases hlk2 : lookupA s.rooms rid2 with
      | none =>
        rw [hlk2] at hnone
        dsimp only at hnone
        rw [hlk] at hnone
        cases hnone
      | some room2 =>
        rw [hlk2] at hnone
        dsimp only at hnone
        by_cases ht : tok2 ≠ room2.hostToken
        · rw [if_pos ht] at hnone
          dsimp only at hnone
          rw [hlk] at hnone
          cases hnone
        · rw [if_neg ht] at hnone
          dsimp only at hnone
          rw [lookupA_eraseA] at hnone
          by_cases he : rid = rid2
          · subst he
            rw [hlk] at hlk2
            cases hlk2
            exact Or.inl ⟨sidC, tok2, rfl, not_not.mp ht⟩
          · rw [if_neg he] at hnone
            obtain ⟨pre, x, post, hdec, hce⟩ :=
              closeFold_removal (room2.users.map (fun p => p.1))
                (s, [⟨roomRecipients s rid2, .system "room-closed" none⟩]) rid
                (by rw [hlk]; rfl) hnone
            exact Or.inr (Or.inr (Or.inr
              ⟨sidC, rid2, tok2, room2, rfl, Ne.symm he, hlk2, not_not.mp ht,
               pre, x, post, hdec, hce⟩))
    | disconnect sidD =>
      unfold stepState step at hnone
      dsimp only at hnone
      exact Or.inr (Or.inl ⟨sidD, rfl, doDisconnect_removal _ _ _ _ hlk hnone⟩)
  · intro ht
    unfold timerFire
    rw [hlk]
    dsimp only
    rw [if_pos ht]
    constructor
    · intro hnone
      by_cases hz : room.users.length = 0
      · exact List.length_eq_zero.mp hz
      · rw [if_neg hz] at hnone
        dsimp only at hnone
        rw [lookupA_setA_self] at hnone
        cases hnone
    · intro hz
      rw [if_pos (by rw [hz]; rfl : room.users.length = 0)]
      exact lookupA_eraseA_self _ _
  · intro sid d u tok2 hr hu hsk room2 hlk2
    unfold handleJoinRoom at hlk2
    rw [if_neg (by simp [hr, hu])] at hlk2
    rw [hlk] at hlk2
    dsimp only at hlk2
    by_cases hfull : room.users.length ≥ 5
    · rw [if_pos hfull] at hlk2
      dsimp only at hlk2
      rw [lookupA_setA_self] at hlk2
      cases hlk2
      rfl
    · rw [if_neg hfull] at hlk2
      rw [hsk] at hlk2
      dsimp only at hlk2
      rw [lookupA_setA_self] at hlk2
      cases hlk2
      by_cases hm : tok2 ≠ "" ∧ tok2 = room.hostToken
      · rw [if_pos hm]
      · rw [if_neg hm]
  · unfold handleCloseRoom
    rw [hlk]
    dsimp only
    rw [if_neg (by simp)]
    exact lookupA_eraseA_self _ _
  · intro sidD hce
    unfold stepState step
    dsimp only
    exact doDisconnect_removes _ _ _ hce

theorem capacity_invariant_witness :
    (lookupA (run initState evsC1).rooms "r" = some roomC1 ∧ roomC1.users.length = 5) ∧
    roomC1.users.length ≤ 5 ∧
    (handleJoinRoom (run initState evsC1) 6 "r" "f" "").ack =
      some (.err "Room full (max 5)") := by
  have h := capacity_invariant evsC1 "r" "f" "" 6 roomC1
  exact ⟨⟨by decide, by decide⟩, h.1 (by decide),
    (h.2 (by decide) (by decide) (by decide) (by decide)).1⟩

theorem close_contract_witness :
    (lookupA wState.rooms "x" = none ∧
      handleCloseRoom wState "x" "tok" = ⟨wState, [], some (.err "Room not found")⟩) ∧
    (("bad" : String) ≠ wRoom.hostToken ∧
      handleCloseRoom wState "r" "bad" = ⟨wState, [], some (.err "Invalid host token")⟩) ∧
    (handleCloseRoom wState "r" "tok").ack = some .ok ∧
    lookupA (handleCloseRoom wState "r" "tok").state.rooms "r" = none ∧
    roomInfo (handleCloseRoom wState "r" "tok").state "r" = none := by
  refine ⟨⟨by decide, (close_contract wState "x" "tok").1 (by decide)⟩,
    ⟨by decide, (close_contract wState "r" "bad").2.1 wRoom (by decide) (by decide)⟩,
    ?_, ?_, ?_⟩
  · exact ((close_contract wState "r" "tok").2.2 wRoom (by decide) (by decide)).1
  · exact ((close_contract wState "r" "tok").2.2 wRoom (by decide) (by decide)).2.2.2.1
  · exact ((close_contract wState "r" "tok").2.2 wRoom (by decide) (by decide)).2.2.2.2

theorem message_rate_limit_witness :
    (lookupA stC3.socks 1 = some dC3 ∧ dC3.roomId = some "r" ∧
      lookupA stC3.rooms "r" = some ⟨"t", none, [(1, "u")], 0, false⟩) ∧
    (handleMessage stC3 1 "hi" 5000).ack =
      some (.err "Rate limit exceeded. Slow down.") ∧
    (handleMessage stC3 1 "hi" 20000).ack = some .ok := by
  refine ⟨⟨by decide, by decide, by decide⟩, ?_, ?_⟩
  · exact ((message_rate_limit stC3 1 dC3 "r" ⟨"t", none, [(1, "u")], 0, false⟩ "hi" 5000
      (by decide) (by decide) (by decide)).1 (by decide)).1
  · exact ((message_rate_limit stC3 1 dC3 "r" ⟨"t", none, [(1, "u")], 0, false⟩ "hi" 20000
      (by decide) (by decide) (by decide)).2 (by decide)).1

theorem host_invariant_witness :
    (lookupA (run initState evsC4).rooms "h" = some roomC4 ∧
      roomC4.hostSocketId = some 1 ∧
      (lookupA roomC4.users 1).isSome = true) ∧
    (∃ room3 d2,
      lookupA (handleJoinRoom wState 3 "r" "carl" "tok").state.rooms "r" = some room3 ∧
      room3.hostSocketId = some 3 ∧
      lookupA (handleJoinRoom wState 3 "r" "carl" "tok").state.socks 3 = some d2 ∧
      d2.isHost = true) := by
  refine ⟨⟨by decide, by decide, ?_⟩, ?_⟩
  · exact (host_invariant evsC4 wState 3 "h" "carl" "tok" roomC4 wSock3).2.1 roomC4 1
      (by decide) (by decide)
  · exact (host_invariant evsC4 wState 3 "r" "carl" "tok" wRoom wSock3).2.2
      (by decide) (by decide) (by decide) (by decide) (by decide) (by decide) (by decide)

theorem message_contract_witness :
    (lookupA wState.socks 3 = some wSock3 ∧ wSock3.roomId = none ∧
      handleMessage wState 3 "x" 0 = ⟨wState, [], some (.err "Not in room")⟩) ∧
    (handleMessage wState 1 "hello" 7 ).ack = some .ok ∧
    (handleMessage wState 1 "hello" 7).emits =
      [⟨roomRecipients (handleMessage wState 1 "hello" 7).state "r",
        .message (some "alice") (jsSlice "hello" 1000) 7⟩] ∧
    1 ∈ roomRecipients (handleMessage wState 1 "hello" 7).state "r" := by
  refine ⟨⟨by decide, by decide,
    (message_contract wState 3 wSock3 "x" 0 (by decide)).1 (by decide)⟩, ?_, ?_, ?_⟩
  · exact ((message_contract wState 1 wSock1 "hello" 7 (by decide)).2.2 "r" wRoom
      (by decide) (by decide) (by decide)).1
  · exact ((message_contract wState 1 wSock1 "hello" 7 (by decide)).2.2 "r" wRoom
      (by decide) (by decide) (by decide)).2.1
  · exact ((message_contract wState 1 wSock1 "hello" 7 (by decide)).2.2 "r" wRoom
      (by decide) (by decide) (by decide)).2.2.1 (by decide)

theorem room_removal_witness :
    lookupA stC6.rooms "r" = some wRoomT ∧
    (lookupA (timerFire stC6 "r").rooms "r" = none ↔ wRoomT.users = []) ∧
    lookupA (handleCloseRoom stC6 "r" wRoomT.hostToken).state.rooms "r" = none := by
  have h := room_removal_characterization stC6 (.timerFire "r") "r" wRoomT (by decide)
  exact ⟨by decide, h.2.1 (by decide), h.2.2.2.1⟩

theorem join_success_witness :
    (("r" : String) ≠ "" ∧ ("carl" : String) ≠ "" ∧
      lookupA wState.rooms "r" = some wRoom ∧ wRoom.users.length < 5 ∧
      lookupA wState.socks 3 = some wSock3) ∧
    (∃ room3 d2,
      lookupA (handleJoinRoom wState 3 "r" "carl" "").state.rooms "r" = some room3 ∧
      room3.cleanupTimer = false ∧
      lookupA room3.users 3 = some (jsSlice "carl" 32) ∧
      lookupA (handleJoinRoom wState 3 "r" "carl" "").state.socks 3 = some d2 ∧
      d2.roomId = some "r" ∧ d2.username = some (jsSlice "carl" 32) ∧
      (handleJoinRoom wState 3 "r" "carl" "").emits =
        [⟨roomRecipients (handleJoinRoom wState 3 "r" "carl" "").state "r",
          .system "join" (some (jsSlice "carl" 32))⟩,
         ⟨roomRecipients (handleJoinRoom wState 3 "r" "carl" "").state "r",
          .participants (room3.users.map (fun p => p.2))⟩] ∧
      (handleJoinRoom wState 3 "r" "carl" "").ack =
        some (.joinOk "r" room3.users.length d2.isHost) ∧
      3 ∈ roomRecipients (handleJoinRoom wState 3 "r" "carl" "").state "r" ∧
      ((∀ m, (lookupA wRoom.users m).isSome = true →
          ∃ dm, lookupA wState.socks m = some dm ∧ dm.ioRooms.contains "r" = true) →
        ∀ m, (lookupA wRoom.users m).isSome = true →
          m ∈ roomRecipients (handleJoinRoom wState 3 "r" "carl" "").state "r")) :=
  ⟨⟨by decide, by decide, by decide, by decide, by decide⟩,
   join_success_contract wState 3 "r" "carl" "" wRoom wSock3
     (by decide) (by decide) (by decide) (by decide) (by decide)⟩

theorem join_one_way_witness :
    (lookupA wState.socks 1 = some wSock1 ∧ wSock1.roomId.isSome = true ∧
      lookupA (stepState wState (.message 1 "m" 0)).socks 1 =
        some ⟨some "r", some "alice", false, [0], ["r"]⟩ ∧
      (⟨some "r", some "alice", false, [0], ["r"]⟩ : SockData).roomId.isSome = true) ∧
    (∃ room1b room2b,
      lookupA (handleJoinRoom wState 1 "q" "u2" "").state.rooms "r" = some room1b ∧
      (lookupA room1b.users 1).isSome = true ∧
      lookupA (handleJoinRoom wState 1 "q" "u2" "").state.rooms "q" = some room2b ∧
      (lookupA room2b.users 1).isSome = true ∧
      ∀ d2, lookupA (handleJoinRoom wState 1 "q" "u2" "").state.socks 1 = some d2 →
        d2.roomId = some "q") := by
  refine ⟨⟨by decide, by decide, by decide, ?_⟩, ?_⟩
  · exact (join_one_way_amended wState (.message 1 "m" 0) 1 wSock1).1
      (by decide) (by decide) (by decide) _ (by decide)
  · exact (join_one_way_amended wState (.joinRoom 1 "q" "u2" "") 1 wSock1).2
      "r" wRoom "q" wRoomQ "u2" "" (by decide) (by decide) (by decide) (by decide)
      (by decide) (by decide) (by decide) (by decide) (by decide)

theorem leave_idempotent_witness :
    (lookupA wState.socks 3 = some wSock3 ∧ wSock3.roomId = none ∧
      (doDisconnect wState 3).1.rooms = wState.rooms) ∧
    (lookupA wState.socks 4 = some wSock4 ∧ wSock4.roomId = some "r" ∧
      lookupA wRoom.users 4 = none ∧ wRoom.hostSocketId ≠ some 4 ∧ wRoom.users ≠ [] ∧
      (doDisconnect wState 4).1.rooms = wState.rooms) := by
  refine ⟨⟨by decide, by decide, ?_⟩, ⟨by decide, by decide, by decide, by decide, by decide, ?_⟩⟩
  · exact (leave_idempotent wState 3 wSock3 (by decide)).1 (by decide)
  · exact (leave_idempotent wState 4 wSock4 (by decide)).2.2 "r" wRoom
      (by decide) (by decide) (by decide) (by decide) (by decide)

theorem close_payload_determined_witness :
    wState.rooms = wStateB.rooms ∧
    (handleCloseRoom wState "r" "tok").ack = (handleCloseRoom wStateB "r" "tok").ack ∧
    lookupA (handleCloseRoom wState "r" "tok").state.rooms "r" =
      lookupA (handleCloseRoom wStateB "r" "tok").state.rooms "r" := by
  have h := close_payload_determined wState wStateB "r" "tok" (by decide)
  exact ⟨by decide, h.1, h.2⟩

end AnonChat
